import Mathlib

set_option autoImplicit false

/-!
A shallow embedding of the REGAIN workout-engine core logic
(`js/core/workout-engine.js`).  JavaScript objects used as string-keyed
maps are embedded as association lists in insertion order (`jsGet` /
`jsSet` mirror property read and property write).  The milestone map is
the one value the engine both reads and writes; since `updateMilestone`
copies the outer object with a shallow spread, nested per-exercise
objects can be shared between input and output, so milestone maps are
embedded with an explicit store: an outer association list maps exercise
ids to addresses of inner objects living in a heap.  All other engine
functions only read milestone data and are embedded over the dereferenced
value (`MilestoneData`).  The catalog fetch, `Math.random` shuffling and
`Date` arithmetic are environment inputs and appear as explicit
parameters.  The configuration tables from `constants.js`
(`FRAMEWORK_MUSCLE_MAPPINGS`, `PHASE_CRITERIA`) are parameters as well,
because that file is not part of the sources; a sample instantiation
modelled from the spec is provided for concrete evaluations.
-/

namespace Regain

/-- JavaScript property read on a string-keyed object embedded as an
association list: the value at the first matching key, if any. -/
def jsGet {α : Type} : List (String × α) → String → Option α
  | [], _ => none
  | p :: ps, k => if p.1 == k then some p.2 else jsGet ps k

/-- JavaScript property write `obj[k] = v`: overwrite the (unique) slot of
an existing key in place, otherwise append the new key (insertion order). -/
def jsSet {α : Type} : List (String × α) → String → α → List (String × α)
  | [], k, v => [(k, v)]
  | p :: ps, k, v => if p.1 == k then (k, v) :: ps else p :: jsSet ps k v

/-- `String.prototype.toUpperCase()` (ASCII), stated over the character
list so that it reduces definitionally. -/
def jsToUpper (s : String) : String := ⟨s.data.map Char.toUpper⟩

/-- `String.prototype.toLowerCase()` (ASCII), stated over the character
list so that it reduces definitionally. -/
def jsToLower (s : String) : String := ⟨s.data.map Char.toLower⟩

/-- `String.prototype.trim()`. -/
def jsTrim (s : String) : String :=
  ⟨((s.data.dropWhile Char.isWhitespace).reverse.dropWhile Char.isWhitespace).reverse⟩

/-- Split a character list at every occurrence of `c` (separator dropped,
empty segments kept — the semantics of `String.prototype.split`). -/
def splitChars (c : Char) : List Char → List (List Char)
  | [] => [[]]
  | ch :: rest =>
      let r := splitChars c rest
      if ch = c then [] :: r
      else
        match r with
        | [] => [[ch]]
        | g :: gs => (ch :: g) :: gs

/-- `String.prototype.split('/')`. -/
def jsSplitOnSlash (s : String) : List String := (splitChars '/' s.data).map String.mk

/-- `target_muscles` field of a variation. -/
structure TargetMuscles where
  primary : List String
  secondary : List String
  deriving Repr, DecidableEq, Inhabited

/-- A difficulty-tiered version of an exercise (catalog data). -/
structure Variation where
  id : String
  name : String
  difficulty_score : Int
  progression_type : String
  bilaterality : String
  target_muscles : TargetMuscles
  technique_cues : List String
  weight : Option String
  deriving Repr, DecidableEq, Inhabited

/-- A catalog exercise with its variations. -/
structure Exercise where
  id : String
  name : String
  discipline : String
  variations : List Variation
  deriving Repr, DecidableEq, Inhabited

/-- One emitted plan entry (also the shape fed to
`findAlternativeVariation` as the current variation). -/
structure PlanItem where
  exerciseId : String
  exerciseName : String
  variationId : String
  variationName : String
  difficulty_score : Int
  weight : Option String
  bilaterality : String
  progression_type : String
  target_muscles : TargetMuscles
  technique_cues : List String
  sets : Option Nat
  reps : Option Nat
  deriving Repr, DecidableEq, Inhabited

/-- The three phase lists of a session plan. -/
structure Phases where
  warmup : List PlanItem
  workout : List PlanItem
  cooldown : List PlanItem
  deriving Repr, DecidableEq, Inhabited

/-- A previous session as consumed by `ensureVariety`: only its `phases`
field is ever read, so prior sessions of either shape (session plans or
weekly day sessions) enter through this projection. -/
structure PrevSession where
  phases : Phases
  deriving Repr, DecidableEq, Inhabited

-- ===========================================================================
-- Milestone store (progressive overload state)
-- ===========================================================================

/-- `OVERLOAD_PERIOD_SESSIONS` from `constants.js`.  Modelled from the
spec: `constants.js` is not among the sources; the spec fixes the
constant to 3 ("integer session count in `[0, OVERLOAD_PERIOD_SESSIONS]`
(constant = 3)"). -/
def OVERLOAD_PERIOD_SESSIONS : Nat := 3

/-- An inner per-exercise milestone object: variation id to session count. -/
abbrev InnerMilestones := List (String × Nat)

/-- The store of inner milestone objects; an address is an index. -/
abbrev Heap := List InnerMilestones

/-- An outer milestone object: exercise id to the address of its inner
object.  Distinct outer maps may share inner objects. -/
abbrev MilestoneMap := List (String × Nat)

/-- The value of a milestone map: every inner address dereferenced.
This is the shape all read-only engine functions consume. -/
abbrev MilestoneData := List (String × InnerMilestones)

/-- Dereference each entry of an outer milestone map. -/
def readMilestones (m : MilestoneMap) (h : Heap) : MilestoneData :=
  m.map (fun p => (p.1, (h[p.2]?).getD []))

/-- The recorded session count for an (exercise, variation) pair, with the
JavaScript defaulting `(milestones[e] || {})[v] || 0`. -/
def milestoneCount (d : MilestoneData) (exerciseId variationId : String) : Nat :=
  (jsGet ((jsGet d exerciseId).getD []) variationId).getD 0

/-- Every address stored in the outer map is a valid heap index. -/
def WFMilestones (m : MilestoneMap) (h : Heap) : Prop :=
  ∀ p ∈ m, p.2 < h.length

instance (m : MilestoneMap) (h : Heap) : Decidable (WFMilestones m h) :=
  inferInstanceAs (Decidable (∀ p ∈ m, p.2 < h.length))

/-- `updateMilestone(exerciseId, variationId, currentMilestones)` from
`workout-engine.js`.  The source does `const updated = {...currentMilestones}`
(a shallow copy: the outer object is fresh but inner objects are shared),
creates a fresh inner object when the exercise has none, then writes
`updated[exerciseId][variationId] = Math.min(count + 1, OVERLOAD_PERIOD_SESSIONS)`
into the inner object — through the shared reference when one existed.
The returned pair is (outer map of the result, updated heap). -/
def updateMilestone (exerciseId variationId : String) (m : MilestoneMap)
    (h : Heap) : MilestoneMap × Heap :=
  match jsGet m exerciseId with
  | some addr =>
      let inner := (h[addr]?).getD []
      let currentCount := (jsGet inner variationId).getD 0
      (m, h.set addr (jsSet inner variationId
        (min (currentCount + 1) OVERLOAD_PERIOD_SESSIONS)))
  | none =>
      let addr := h.length
      let m' := jsSet m exerciseId addr
      let inner : InnerMilestones := []
      let currentCount := (jsGet inner variationId).getD 0
      (m', (h ++ [[]]).set addr (jsSet inner variationId
        (min (currentCount + 1) OVERLOAD_PERIOD_SESSIONS)))

/-- Iterated `updateMilestone` on the same pair, threading map and heap. -/
def updateMilestoneN (exerciseId variationId : String) :
    Nat → MilestoneMap × Heap → MilestoneMap × Heap
  | 0, s => s
  | n + 1, s =>
      let s' := updateMilestoneN exerciseId variationId n s
      updateMilestone exerciseId variationId s'.1 s'.2

-- ===========================================================================
-- Association-list and store lemmas
-- ===========================================================================

theorem jsGet_jsSet_self {α : Type} (l : List (String × α)) (k : String) (v : α) :
    jsGet (jsSet l k v) k = some v := by
  induction l with
  | nil => simp [jsGet, jsSet]
  | cons p ps ih =>
      by_cases hk : p.1 = k
      · simp [jsGet, jsSet, hk]
      · simpa [jsGet, jsSet, hk] using ih

theorem jsGet_mem {α : Type} {l : List (String × α)} {k : String} {v : α}
    (h : jsGet l k = some v) : (k, v) ∈ l := by
  induction l with
  | nil => simp [jsGet] at h
  | cons p ps ih =>
      obtain ⟨a, b⟩ := p
      by_cases hk : a = k
      · subst hk
        simp only [jsGet, beq_self_eq_true, if_true, Option.some_inj] at h
        subst h
        exact List.mem_cons_self _ _
      · simp only [jsGet, beq_iff_eq, hk, if_false] at h
        exact List.mem_cons_of_mem _ (ih h)

theorem mem_jsSet {α : Type} {l : List (String × α)} {k : String} {v : α}
    {p : String × α} (h : p ∈ jsSet l k v) : p ∈ l ∨ p = (k, v) := by
  induction l with
  | nil => simpa [jsSet] using h
  | cons q qs ih =>
      by_cases hk : q.1 = k
      · simp only [jsSet, hk, beq_self_eq_true, if_true, List.mem_cons] at h
        rcases h with h | h
        · exact Or.inr h
        · exact Or.inl (List.mem_cons_of_mem _ h)
      · simp only [jsSet, beq_iff_eq, hk, if_false, List.mem_cons] at h
        rcases h with h | h
        · exact Or.inl (h ▸ List.mem_cons_self q qs)
        · rcases ih h with h' | h'
          · exact Or.inl (List.mem_cons_of_mem _ h')
          · exact Or.inr h'

/-- Reading a key through the dereferenced view of a milestone map. -/
theorem jsGet_readMilestones (m : MilestoneMap) (h : Heap) (k : String) :
    jsGet (readMilestones m h) k = (jsGet m k).map (fun a => (h[a]?).getD []) := by
  induction m with
  | nil => simp [jsGet, readMilestones]
  | cons p ps ih =>
      obtain ⟨a, b⟩ := p
      by_cases hk : a = k
      · simp [jsGet, readMilestones, hk]
      · simp only [readMilestones, List.map_cons] at ih ⊢
        simpa [jsGet, hk] using ih

theorem milestoneCount_of_jsGet_some {m : MilestoneMap} {h : Heap} {e : String}
    {addr : Nat} (hget : jsGet m e = some addr) (v : String) :
    milestoneCount (readMilestones m h) e v = (jsGet ((h[addr]?).getD []) v).getD 0 := by
  unfold milestoneCount
  rw [jsGet_readMilestones, hget]
  rfl

theorem milestoneCount_of_jsGet_none {m : MilestoneMap} {h : Heap} {e : String}
    (hget : jsGet m e = none) (v : String) :
    milestoneCount (readMilestones m h) e v = 0 := by
  unfold milestoneCount
  rw [jsGet_readMilestones, hget]
  simp [jsGet]

/-- After one `updateMilestone`, the count recorded in the RETURNED map for
the updated pair is the saturating increment of the previous count. -/
theorem updateMilestone_count (e v : String) (m : MilestoneMap) (h : Heap)
    (wf : WFMilestones m h) :
    milestoneCount
        (readMilestones (updateMilestone e v m h).1 (updateMilestone e v m h).2) e v
      = min (milestoneCount (readMilestones m h) e v + 1) OVERLOAD_PERIOD_SESSIONS := by
  cases hget : jsGet m e with
  | some addr =>
      have haddr : addr < h.length := wf _ (jsGet_mem hget)
      simp only [updateMilestone, hget]
      rw [milestoneCount_of_jsGet_some hget, milestoneCount_of_jsGet_some hget,
        List.getElem?_set_eq_of_lt _ haddr]
      simp [jsGet_jsSet_self]
  | none =>
      simp only [updateMilestone, hget]
      rw [milestoneCount_of_jsGet_none hget,
        milestoneCount_of_jsGet_some (jsGet_jsSet_self m e h.length),
        List.getElem?_set_eq_of_lt _ (by simp)]
      simp [jsGet_jsSet_self, jsGet]

/-- `updateMilestone` keeps all stored addresses valid. -/
theorem updateMilestone_wf (e v : String) (m : MilestoneMap) (h : Heap)
    (wf : WFMilestones m h) :
    WFMilestones (updateMilestone e v m h).1 (updateMilestone e v m h).2 := by
  cases hget : jsGet m e with
  | some addr =>
      simp only [updateMilestone, hget]
      intro p hp
      simpa using wf p hp
  | none =>
      simp only [updateMilestone, hget]
      intro p hp
      rcases mem_jsSet hp with h' | h'
      · have := wf p h'
        simp only [List.length_set, List.length_append, List.length_singleton]
        omega
      · subst h'
        simp

/-- When the input map has no entry for the exercise, the fresh inner
object is allocated outside the input's reachable store, so the input's
observable value is untouched. -/
theorem updateMilestone_frame (e v : String) (m : MilestoneMap) (h : Heap)
    (wf : WFMilestones m h) (hget : jsGet m e = none) :
    readMilestones m (updateMilestone e v m h).2 = readMilestones m h := by
  simp only [updateMilestone, hget]
  unfold readMilestones
  apply List.map_congr_left
  intro p hp
  have hlt := wf p hp
  have h1 : (((h ++ [[]]).set h.length
      (jsSet [] v (min ((jsGet ([] : InnerMilestones) v).getD 0 + 1)
        OVERLOAD_PERIOD_SESSIONS)))[p.2]?) = h[p.2]? := by
    rw [List.getElem?_set_ne (by omega), List.getElem?_append_left hlt]
  rw [h1]

/-- Iterated updates from an empty milestone state stay well formed. -/
theorem updateMilestoneN_wf (e v : String) (k : Nat) :
    WFMilestones (updateMilestoneN e v k ([], [])).1 (updateMilestoneN e v k ([], [])).2 := by
  induction k with
  | zero => intro p hp; simp [updateMilestoneN] at hp
  | succ n ih => exact updateMilestone_wf e v _ _ ih

theorem updateMilestoneN_count (e v : String) (k : Nat) :
    milestoneCount
        (readMilestones (updateMilestoneN e v k ([], [])).1 (updateMilestoneN e v k ([], [])).2)
        e v = min k OVERLOAD_PERIOD_SESSIONS := by
  induction k with
  | zero => simp [updateMilestoneN, readMilestones, milestoneCount, jsGet]
  | succ n ih =>
      have step := updateMilestone_count e v
        (updateMilestoneN e v n ([], [])).1 (updateMilestoneN e v n ([], [])).2
        (updateMilestoneN_wf e v n)
      rw [ih] at step
      simp only [updateMilestoneN]
      rw [step]
      unfold OVERLOAD_PERIOD_SESSIONS
      omega

-- ===========================================================================
-- Claims C1 and C3
-- ===========================================================================

/-- C1, counterexample: `updateMilestone` does NOT leave its input
unchanged when the map already contains an entry for the exercise.  With
`m = {e1: {v1: 1}}`, after `updateMilestone("e1", "v1", m)` the count read
through the ORIGINAL map `m` has changed from 1 to 2: the shallow spread
`{...currentMilestones}` shares the inner object, which is then written
in place. -/
theorem updateMilestone_mutates_existing_entry :
    milestoneCount (readMilestones [("e1", 0)] [[("v1", 1)]]) "e1" "v1" = 1 ∧
    milestoneCount
        (readMilestones [("e1", 0)]
          (updateMilestone "e1" "v1" [("e1", 0)] [[("v1", 1)]]).2) "e1" "v1" = 2 := by
  decide

/-- C1, amended: `updateMilestone(e, v, m)` leaves its input `m`
completely unchanged when `m` has NO entry for `e` (the fresh inner
object is unreachable from `m`); but when `m` already contains an entry
for `e`, the returned outer map equals the input and the write goes
through the shared inner object, so the count observed through the input
`m` itself becomes the saturating increment — the input is mutated in
place in that case. -/
theorem updateMilestone_aliasing (e v : String) (m : MilestoneMap) (h : Heap)
    (wf : WFMilestones m h) :
    (jsGet m e = none →
      readMilestones m (updateMilestone e v m h).2 = readMilestones m h) ∧
    (∀ addr, jsGet m e = some addr →
      (updateMilestone e v m h).1 = m ∧
      milestoneCount (readMilestones m (updateMilestone e v m h).2) e v
        = min (milestoneCount (readMilestones m h) e v + 1) OVERLOAD_PERIOD_SESSIONS) := by
  refine ⟨fun hget => updateMilestone_frame e v m h wf hget, fun addr hget => ?_⟩
  have step := updateMilestone_count e v m h wf
  constructor
  · simp [updateMilestone, hget]
  · simp only [updateMilestone, hget] at step ⊢
    exact step

/-- C1 witness: the shared-entry branch of `updateMilestone_aliasing`
instantiated at `m = {e1: {v1: 1}}`. -/
theorem updateMilestone_aliasing_witness :
    WFMilestones [("e1", 0)] [[("v1", 1)]] ∧
    milestoneCount
        (readMilestones [("e1", 0)]
          (updateMilestone "e1" "v1" [("e1", 0)] [[("v1", 1)]]).2) "e1" "v1"
      = min (milestoneCount (readMilestones [("e1", 0)] [[("v1", 1)]]) "e1" "v1" + 1)
          OVERLOAD_PERIOD_SESSIONS :=
  ⟨by decide,
   ((updateMilestone_aliasing "e1" "v1" [("e1", 0)] [[("v1", 1)]] (by decide)).2 0 rfl).2⟩

/-- C3: for a recorded count `c ≤ 3`, `updateMilestone` records
`min (c + 1, 3)` for the updated pair in the returned map; iterating from
a fresh pair records `min (k, 3)` after `k` applications, so 5 successive
applications give exactly 3 and the count never exceeds 3. -/
theorem updateMilestone_saturating (e v : String) (m : MilestoneMap) (h : Heap)
    (c : Nat) (wf : WFMilestones m h)
    (hc : milestoneCount (readMilestones m h) e v = c)
    (_hc3 : c ≤ OVERLOAD_PERIOD_SESSIONS) :
    milestoneCount
        (readMilestones (updateMilestone e v m h).1 (updateMilestone e v m h).2) e v
      = min (c + 1) OVERLOAD_PERIOD_SESSIONS ∧
    (∀ k, milestoneCount
        (readMilestones (updateMilestoneN e v k ([], [])).1
          (updateMilestoneN e v k ([], [])).2) e v = min k OVERLOAD_PERIOD_SESSIONS) ∧
    milestoneCount
        (readMilestones (updateMilestoneN e v 5 ([], [])).1
          (updateMilestoneN e v 5 ([], [])).2) e v = 3 :=
  ⟨hc ▸ updateMilestone_count e v m h wf,
   updateMilestoneN_count e v,
   by rw [updateMilestoneN_count]; decide⟩

/-- C3 witness: `updateMilestone_saturating` at the fresh state. -/
theorem updateMilestone_saturating_witness :
    milestoneCount (readMilestones [] []) "e1" "v1" = 0 ∧
    milestoneCount
        (readMilestones (updateMilestone "e1" "v1" [] []).1
          (updateMilestone "e1" "v1" [] []).2) "e1" "v1"
      = min (0 + 1) OVERLOAD_PERIOD_SESSIONS ∧
    milestoneCount
        (readMilestones (updateMilestoneN "e1" "v1" 5 ([], [])).1
          (updateMilestoneN "e1" "v1" 5 ([], [])).2) "e1" "v1" = 3 :=
  ⟨by decide,
   (updateMilestone_saturating "e1" "v1" [] [] 0 (by decide) (by decide) (by decide)).1,
   (updateMilestone_saturating "e1" "v1" [] [] 0 (by decide) (by decide) (by decide)).2.2⟩

-- ===========================================================================
-- Catalog order and filter functions
-- ===========================================================================

/-- Stable insertion of `x` after every element `y` with `le y x`. -/
def insertStable {α : Type} (le : α → α → Bool) (x : α) : List α → List α
  | [] => [x]
  | y :: ys => if le y x then y :: insertStable le x ys else x :: y :: ys

/-- Stable sort by `le`, inserting left to right.  Models JavaScript
`Array.prototype.sort` (stable) with an ascending comparator. -/
def sortStable {α : Type} (le : α → α → Bool) (l : List α) : List α :=
  l.foldl (fun acc x => insertStable le x acc) []

/-- `getVariationsForExercise(exercise)`: a copy of the variations sorted
ascending by `difficulty_score` (stable, ties keep catalog order). -/
def getVariationsForExercise (exercise : Exercise) : List Variation :=
  sortStable (fun a b => decide (a.difficulty_score ≤ b.difficulty_score))
    exercise.variations

/-- `filterExercisesByDiscipline(exercises, disciplines)`.  `none` embeds
a JavaScript-falsy criterion (`null`/`undefined`); a scalar argument
enters as a one-element list. -/
def filterExercisesByDiscipline (exercises : List Exercise)
    (disciplines : Option (List String)) : List Exercise :=
  match disciplines with
  | none => exercises
  | some ds => exercises.filter (fun e => e.discipline != "" && ds.contains e.discipline)

/-- One entry of `FRAMEWORK_MUSCLE_MAPPINGS`. -/
structure MuscleMapping where
  primary : List String
  secondary : List String
  deriving Repr, DecidableEq, Inhabited

/-- One entry of `PHASE_CRITERIA`.  A single record shape is used for all
three phases; fields a phase does not consult are ignored. -/
structure PhaseCriteria where
  minDifficulty : Int
  maxDifficulty : Int
  preferredProgressionTypes : List String
  preferredBilaterality : String
  deriving Repr, DecidableEq, Inhabited

/-- The configuration tables imported from `constants.js`
(`FRAMEWORK_MUSCLE_MAPPINGS` and `PHASE_CRITERIA`).  That file is not
among the sources, so the engine is embedded parametrically in it. -/
structure EngineConfig where
  frameworkMuscleMappings : String → Option MuscleMapping
  phaseCriteria : String → Option PhaseCriteria

/-- `exerciseMatchesFramework(exercise, framework)`: some variation shares
a (case-insensitive) muscle with the framework's configured muscle set;
an unmapped framework never matches. -/
def exerciseMatchesFramework (cfg : EngineConfig) (exercise : Exercise)
    (framework : String) : Bool :=
  match cfg.frameworkMuscleMappings framework with
  | none => false
  | some mapping =>
      if exercise.variations.isEmpty then false
      else
        exercise.variations.any (fun variation =>
          let muscles := (variation.target_muscles.primary ++
            variation.target_muscles.secondary).map jsToLower
          let frameworkMuscles := (mapping.primary ++ mapping.secondary).map jsToLower
          muscles.any (fun muscle => frameworkMuscles.contains muscle))

/-- `filterExercisesByFramework(exercises, framework)`: split a composite
name on `/` and keep exercises matching any trimmed part. -/
def filterExercisesByFramework (cfg : EngineConfig) (exercises : List Exercise)
    (framework : Option String) : List Exercise :=
  match framework with
  | none => exercises
  | some f =>
      if f = "" then exercises
      else
        let frameworkParts := jsSplitOnSlash f
        exercises.filter (fun e =>
          frameworkParts.any (fun part => exerciseMatchesFramework cfg e (jsTrim part)))

/-- `filterExercisesByPhase(exercises, phase)`: criteria are looked up at
`phase.toUpperCase()`; with no criteria the input is returned unchanged;
otherwise an exercise is kept when some variation satisfies the branch
for the (lower-case) phase name, and the three branches all fail for any
other spelling. -/
def filterExercisesByPhase (cfg : EngineConfig) (exercises : List Exercise)
    (phase : Option String) : List Exercise :=
  match phase with
  | none => exercises
  | some p =>
      if p = "" then exercises
      else
        match cfg.phaseCriteria (jsToUpper p) with
        | none => exercises
        | some criteria =>
            exercises.filter (fun e =>
              if e.variations.isEmpty then false
              else
                e.variations.any (fun variation =>
                  let difficulty := variation.difficulty_score
                  let progressionType := variation.progression_type
                  let bilaterality := variation.bilaterality
                  if p = "warmup" then
                    decide (difficulty ≤ criteria.maxDifficulty) &&
                      (criteria.preferredProgressionTypes.contains progressionType ||
                        bilaterality == criteria.preferredBilaterality)
                  else if p = "workout" then
                    decide (criteria.minDifficulty ≤ difficulty) &&
                      decide (difficulty ≤ criteria.maxDifficulty)
                  else if p = "cooldown" then
                    decide (difficulty ≤ criteria.maxDifficulty) &&
                      criteria.preferredProgressionTypes.contains progressionType
                  else false))

/-- `filterExercisesByEquipment(exercises, availableEquipment)`: a
documented stub — every exercise passes (equipment is not modelled on
catalog entries yet). -/
def filterExercisesByEquipment (exercises : List Exercise)
    (_availableEquipment : List String) : List Exercise :=
  exercises

/-- `filterExercisesByDiscomforts(exercises, discomforts)`: excludes an
exercise when some variation's PRIMARY target muscles case-insensitively
intersect the discomfort list.  (The source computes a combined
primary-and-secondary `muscles` list in the inner callback but never uses
it; the decision reads only `target_muscles.primary`.) -/
def filterExercisesByDiscomforts (exercises : List Exercise)
    (discomforts : List String) : List Exercise :=
  if discomforts.isEmpty then exercises
  else
    let discomfortLower := discomforts.map jsToLower
    exercises.filter (fun e =>
      !(e.variations.any (fun variation =>
        variation.target_muscles.primary.any (fun muscle =>
          discomfortLower.contains (jsToLower muscle)))))

-- ===========================================================================
-- Milestone readers (progressive overload)
-- ===========================================================================

/-- The user profile fields the engine reads.  `preferredDisciplines` is
optional because the weekly assembler defaults it when JS-falsy. -/
structure UserProfile where
  currentMilestones : MilestoneData
  goals : List String
  equipment : List String
  discomforts : List String
  preferredDisciplines : Option (List String)
  deriving Repr, DecidableEq, Inhabited

/-- An empty profile (`{}` at call sites). -/
def emptyProfile : UserProfile := ⟨[], [], [], [], none⟩

/-- `getCurrentVariation(exerciseId, currentMilestones, exercise)`: among
recorded entries with count strictly below the threshold, the first one
with the strictly highest count (map iteration order); when none is found
(or its id is the empty string, which is JS-falsy), the lowest-difficulty
variation; when the found id is not among the variations, again the
lowest-difficulty one.  `none` only for an exercise without variations. -/
def getCurrentVariation (exerciseId : String) (currentMilestones : MilestoneData)
    (exercise : Exercise) : Option Variation :=
  if exercise.variations.isEmpty then none
  else
    let sortedVariations := getVariationsForExercise exercise
    let milestones := (jsGet currentMilestones exerciseId).getD []
    let current := milestones.foldl
      (fun (acc : Option (String × Nat)) p =>
        match acc with
        | none => if p.2 < OVERLOAD_PERIOD_SESSIONS then some p else none
        | some best =>
            if decide (best.2 < p.2) && decide (p.2 < OVERLOAD_PERIOD_SESSIONS) then
              some p
            else some best)
      none
    match current with
    | none => sortedVariations.head?
    | some (currentVariationId, _) =>
        if currentVariationId = "" then sortedVariations.head?
        else
          match sortedVariations.find? (fun v => v.id == currentVariationId) with
          | some variation => some variation
          | none => sortedVariations.head?

/-- `isMilestoneAchieved(exerciseId, variationId, currentMilestones)`:
recorded count (default 0) is at least the threshold. -/
def isMilestoneAchieved (exerciseId variationId : String)
    (currentMilestones : MilestoneData) : Bool :=
  let milestones := (jsGet currentMilestones exerciseId).getD []
  let sessionCount := (jsGet milestones variationId).getD 0
  decide (OVERLOAD_PERIOD_SESSIONS ≤ sessionCount)

/-- `getNextVariation(exercise, currentVariationId)`: the variation after
the current one in difficulty-sorted order; `none` at the top or when the
id is not found. -/
def getNextVariation (exercise : Exercise) (currentVariationId : String) :
    Option Variation :=
  let sortedVariations := getVariationsForExercise exercise
  match sortedVariations.findIdx? (fun v => v.id == currentVariationId) with
  | none => none
  | some currentIndex =>
      if currentIndex = sortedVariations.length - 1 then none
      else sortedVariations[currentIndex + 1]?

/-- `selectVariationForUser(exercise, currentMilestones, userProfile)`:
the current variation, upgraded to the next one exactly when its recorded
count has reached the threshold and a next variation exists.  The profile
argument is accepted and ignored, as in the source. -/
def selectVariationForUser (exercise : Exercise) (currentMilestones : MilestoneData)
    (_userProfile : UserProfile) : Option Variation :=
  match getCurrentVariation exercise.id currentMilestones exercise with
  | none => none
  | some currentVariation =>
      let milestoneData := (jsGet currentMilestones exercise.id).getD []
      let sessionCount := (jsGet milestoneData currentVariation.id).getD 0
      if OVERLOAD_PERIOD_SESSIONS ≤ sessionCount then
        match getNextVariation exercise currentVariation.id with
        | some nextVariation => some nextVariation
        | none => some currentVariation
      else some currentVariation

-- ===========================================================================
-- Sorting lemmas
-- ===========================================================================

theorem length_insertStable {α : Type} (le : α → α → Bool) (x : α) (l : List α) :
    (insertStable le x l).length = l.length + 1 := by
  induction l with
  | nil => rfl
  | cons y ys ih =>
      by_cases hle : le y x
      · simp [insertStable, hle, ih]
      · simp [insertStable, hle]

theorem mem_insertStable {α : Type} (le : α → α → Bool) (x y : α) (l : List α) :
    y ∈ insertStable le x l ↔ y = x ∨ y ∈ l := by
  induction l with
  | nil => simp [insertStable]
  | cons z zs ih =>
      unfold insertStable
      by_cases hle : le z x
      all_goals simp [hle, ih]
      all_goals tauto

theorem length_foldl_insertStable {α : Type} (le : α → α → Bool) :
    ∀ (l acc : List α),
      (l.foldl (fun acc x => insertStable le x acc) acc).length = acc.length + l.length
  | [], acc => rfl
  | x :: xs, acc => by
      simp only [List.foldl_cons, List.length_cons]
      rw [length_foldl_insertStable le xs, length_insertStable]
      omega

theorem mem_foldl_insertStable {α : Type} (le : α → α → Bool) :
    ∀ (l acc : List α) (y : α),
      y ∈ l.foldl (fun acc x => insertStable le x acc) acc ↔ y ∈ acc ∨ y ∈ l
  | [], acc, y => by simp
  | x :: xs, acc, y => by
      simp only [List.foldl_cons]
      rw [mem_foldl_insertStable le xs, mem_insertStable]
      simp only [List.mem_cons]
      tauto

theorem length_sortStable {α : Type} (le : α → α → Bool) (l : List α) :
    (sortStable le l).length = l.length := by
  unfold sortStable
  rw [length_foldl_insertStable]
  simp

theorem mem_sortStable {α : Type} (le : α → α → Bool) (l : List α) (y : α) :
    y ∈ sortStable le l ↔ y ∈ l := by
  unfold sortStable
  rw [mem_foldl_insertStable]
  simp

/-- An exercise that has variations always yields a current variation. -/
theorem getCurrentVariation_isSome (exerciseId : String) (d : MilestoneData)
    (exercise : Exercise) (hne : exercise.variations ≠ []) :
    ∃ cv, getCurrentVariation exerciseId d exercise = some cv := by
  have hempty : exercise.variations.isEmpty = false := by
    cases hv : exercise.variations with
    | nil => exact absurd hv hne
    | cons a as => rfl
  have hslen : (getVariationsForExercise exercise).length = exercise.variations.length :=
    length_sortStable _ _
  have hsne : getVariationsForExercise exercise ≠ [] := by
    intro h0
    rw [h0] at hslen
    cases hv : exercise.variations with
    | nil => exact hne hv
    | cons a as => rw [hv] at hslen; simp at hslen
  obtain ⟨a, as, hcons⟩ := List.exists_cons_of_ne_nil hsne
  unfold getCurrentVariation
  simp only [hempty, Bool.false_eq_true, if_false]
  cases hcur : (((jsGet d exerciseId).getD []).foldl
      (fun (acc : Option (String × Nat)) p =>
        match acc with
        | none => if p.2 < OVERLOAD_PERIOD_SESSIONS then some p else none
        | some best =>
            if decide (best.2 < p.2) && decide (p.2 < OVERLOAD_PERIOD_SESSIONS) then
              some p
            else some best)
      none) with
  | none => exact ⟨a, by simp [hcur, hcons]⟩
  | some cur =>
      obtain ⟨currentVariationId, cnt⟩ := cur
      by_cases hid : currentVariationId = ""
      · exact ⟨a, by simp [hcur, hid, hcons]⟩
      · cases hfind : (getVariationsForExercise exercise).find? (fun v => v.id == currentVariationId) with
        | none =>
            rw [hcons] at hfind
            exact ⟨a, by simp [hcur, hid, hcons, hfind]⟩
        | some variation => exact ⟨variation, by simp [hcur, hid, hfind]⟩

-- ===========================================================================
-- Sample catalog data (used for concrete evaluations)
-- ===========================================================================

/-- The spec's upgrade example: variation V1 with score 1. -/
def upgradeV1 : Variation :=
  { id := "V1", name := "Variation 1", difficulty_score := 1,
    progression_type := "load", bilaterality := "bilateral",
    target_muscles := ⟨["chest"], []⟩, technique_cues := [], weight := none }

/-- The spec's upgrade example: variation V2 with score 5. -/
def upgradeV2 : Variation :=
  { upgradeV1 with id := "V2", name := "Variation 2", difficulty_score := 5 }

/-- The spec's upgrade example: an exercise with variations `[V1, V2]`. -/
def upgradeExercise : Exercise :=
  { id := "E1", name := "Exercise 1", discipline := "Pilates",
    variations := [upgradeV1, upgradeV2] }

-- ===========================================================================
-- Claim C2
-- ===========================================================================

/-- C2: for an exercise with at least one variation,
`selectVariationForUser` returns the variation computed by
`getCurrentVariation`, except that when that variation's recorded count
has reached the overload threshold and a next-harder variation exists it
returns that next variation; in particular for variations
`[V1(score 1), V2(score 5)]`, milestone `{V1: 3}` yields V2 and `{V1: 2}`
yields V1. -/
theorem selectVariationForUser_spec (exercise : Exercise) (d : MilestoneData)
    (profile : UserProfile) (hne : exercise.variations ≠ []) :
    (∃ cv, getCurrentVariation exercise.id d exercise = some cv ∧
      selectVariationForUser exercise d profile =
        some (if OVERLOAD_PERIOD_SESSIONS ≤ (jsGet ((jsGet d exercise.id).getD []) cv.id).getD 0
          then (getNextVariation exercise cv.id).getD cv
          else cv)) ∧
    selectVariationForUser upgradeExercise [("E1", [("V1", 3)])] emptyProfile = some upgradeV2 ∧
    selectVariationForUser upgradeExercise [("E1", [("V1", 2)])] emptyProfile = some upgradeV1 := by
  obtain ⟨cv, hcv⟩ := getCurrentVariation_isSome exercise.id d exercise hne
  refine ⟨⟨cv, hcv, ?_⟩, by decide, by decide⟩
  unfold selectVariationForUser
  rw [hcv]
  by_cases hsc : OVERLOAD_PERIOD_SESSIONS ≤ (jsGet ((jsGet d exercise.id).getD []) cv.id).getD 0
  · simp only [hsc, if_true]
    cases hnext : getNextVariation exercise cv.id <;> simp [hnext]
  · simp [hsc]

/-- C2 witness: `selectVariationForUser_spec` at the spec's example. -/
theorem selectVariationForUser_spec_witness :
    upgradeExercise.variations ≠ [] ∧
    selectVariationForUser upgradeExercise [("E1", [("V1", 3)])] emptyProfile = some upgradeV2 :=
  ⟨by decide,
   (selectVariationForUser_spec upgradeExercise [("E1", [("V1", 3)])] emptyProfile
     (by decide)).2.1⟩

-- ===========================================================================
-- Sample configuration (constants.js is not among the sources)
-- ===========================================================================

/-- Modelled from the spec: `PHASE_CRITERIA` from `constants.js`, which is
not among the sources.  The spec fixes the criteria SHAPES (warmup:
difficulty cap plus preferred progression types or preferred bilaterality;
workout: difficulty band; cooldown: difficulty cap plus preferred
progression types) and the engine looks entries up by the upper-cased
phase name; the concrete numbers below are a sample instantiation, and
every claim theorem is parametric in the table. -/
def specPhaseCriteria : String → Option PhaseCriteria := fun s =>
  if s = "WARMUP" then some ⟨0, 3, ["mobility", "stability"], "bilateral"⟩
  else if s = "WORKOUT" then some ⟨4, 8, [], ""⟩
  else if s = "COOLDOWN" then some ⟨0, 3, ["mobility"], ""⟩
  else none

/-- Modelled from the spec: `FRAMEWORK_MUSCLE_MAPPINGS` from
`constants.js`, which is not among the sources.  The spec names the
framework parts (Push, Pull, Legs, Upper, Lower, Chest, Back, Full Body)
each mapping to primary/secondary muscle lists; the lists below are a
sample instantiation, and every claim theorem is parametric in the
table. -/
def specFrameworkMuscleMappings : String → Option MuscleMapping := fun s =>
  if s = "Push" then some ⟨["chest", "shoulders", "triceps"], ["core"]⟩
  else if s = "Pull" then some ⟨["back", "biceps"], ["forearms"]⟩
  else if s = "Legs" then some ⟨["quadriceps", "hamstrings", "glutes"], ["calves"]⟩
  else if s = "Upper" then some ⟨["chest", "back", "shoulders"], ["arms"]⟩
  else if s = "Lower" then some ⟨["quadriceps", "hamstrings", "glutes"], ["calves"]⟩
  else if s = "Chest" then some ⟨["chest"], ["triceps"]⟩
  else if s = "Back" then some ⟨["back"], ["biceps"]⟩
  else if s = "Full Body" then some ⟨["chest", "back", "quadriceps", "core"], []⟩
  else none

/-- The sample engine configuration used for concrete evaluations. -/
def specEngineConfig : EngineConfig :=
  ⟨specFrameworkMuscleMappings, specPhaseCriteria⟩

-- ===========================================================================
-- Claim C5
-- ===========================================================================

/-- C5, counterexample: the phase name `"Warmup"` is none of `warmup`,
`workout`, `cooldown`, yet `filterExercisesByPhase` does NOT return the
input unchanged: `"Warmup".toUpperCase()` finds the WARMUP criteria, and
the per-phase branches (which compare against the lower-case names) all
fail, so every exercise is dropped. -/
theorem filterExercisesByPhase_case_variant_not_identity :
    filterExercisesByPhase specEngineConfig [upgradeExercise] (some "Warmup") = [] ∧
    [upgradeExercise] ≠ [] := by
  constructor
  · decide
  · decide

/-- C5, amended: `filterExercisesByPhase` is the identity exactly for
phase names whose upper-cased form has no configured criteria; a phase
name whose upper-cased form IS configured but which is not literally
`warmup`/`workout`/`cooldown` (e.g. the case variant `"Warmup"`) instead
filters every exercise out; and `filterExercisesByFramework` with a
framework none of whose slash-separated parts has a configured muscle
mapping returns the empty list — the unknown-phase and unknown-framework
behaviors remain asymmetric. -/
theorem filterByPhase_filterByFramework_unknown (cfg : EngineConfig)
    (exercises : List Exercise) (p f : String) :
    (cfg.phaseCriteria (jsToUpper p) = none →
      filterExercisesByPhase cfg exercises (some p) = exercises) ∧
    (∀ criteria, p ≠ "" → p ≠ "warmup" → p ≠ "workout" → p ≠ "cooldown" →
      cfg.phaseCriteria (jsToUpper p) = some criteria →
      filterExercisesByPhase cfg exercises (some p) = []) ∧
    (f ≠ "" →
      (∀ part ∈ jsSplitOnSlash f, cfg.frameworkMuscleMappings (jsTrim part) = none) →
      filterExercisesByFramework cfg exercises (some f) = []) := by
  refine ⟨fun hnone => ?_, fun criteria hp0 hp1 hp2 hp3 hsome => ?_, fun hf0 hparts => ?_⟩
  · unfold filterExercisesByPhase
    by_cases hp : p = ""
    · simp [hp]
    · simp [hp, hnone]
  · unfold filterExercisesByPhase
    simp only [hp0, if_false, hsome]
    apply List.filter_eq_nil_iff.mpr
    intro e _he
    by_cases hv : e.variations.isEmpty
    · simp [hv]
    · simp only [hv, Bool.false_eq_true, if_false]
      simp [hp1, hp2, hp3]
  · unfold filterExercisesByFramework
    simp only [hf0, if_false]
    apply List.filter_eq_nil_iff.mpr
    intro e _he
    simp only [List.any_eq_true, not_exists, not_and]
    intro part hpart
    unfold exerciseMatchesFramework
    rw [hparts part hpart]
    simp

/-- C5 witness: the three branches of
`filterByPhase_filterByFramework_unknown` at the sample configuration:
an unconfigured phase name is the identity, the case variant `"Warmup"`
empties the list, and an unmapped framework empties the list. -/
theorem filterByPhase_filterByFramework_unknown_witness :
    filterExercisesByPhase specEngineConfig [upgradeExercise] (some "stretching")
      = [upgradeExercise] ∧
    filterExercisesByPhase specEngineConfig [upgradeExercise] (some "Warmup") = [] ∧
    filterExercisesByFramework specEngineConfig [upgradeExercise] (some "Yoga/Flow") = [] :=
  ⟨(filterByPhase_filterByFramework_unknown specEngineConfig [upgradeExercise]
      "stretching" "x").1 (by decide),
   (filterByPhase_filterByFramework_unknown specEngineConfig [upgradeExercise]
      "Warmup" "x").2.1 ⟨0, 3, ["mobility", "stability"], "bilateral"⟩
      (by decide) (by decide) (by decide) (by decide) (by decide),
   (filterByPhase_filterByFramework_unknown specEngineConfig [upgradeExercise]
      "x" "Yoga/Flow").2.2 (by decide) (by decide)⟩

-- ===========================================================================
-- Claim C6
-- ===========================================================================

/-- An exercise mentioning "back" only among SECONDARY target muscles. -/
def secondaryOnlyExercise : Exercise :=
  { id := "S1", name := "Secondary Only", discipline := "Pilates",
    variations := [{ upgradeV1 with id := "SV1", target_muscles := ⟨["chest"], ["back"]⟩ }] }

/-- An exercise mentioning "back" among PRIMARY target muscles. -/
def primaryHitExercise : Exercise :=
  { id := "P1", name := "Primary Hit", discipline := "Pilates",
    variations := [{ upgradeV1 with id := "PV1", target_muscles := ⟨["back"], []⟩ }] }

/-- C6: with a non-empty discomfort list,
`filterExercisesByDiscomforts` keeps an exercise if and only if NO
variation's PRIMARY target muscles case-insensitively intersect the
discomfort list; in particular an exercise naming a discomfort term only
among secondary muscles is kept, and one naming it among primary muscles
is excluded. -/
theorem filterExercisesByDiscomforts_primary_only (exercises : List Exercise)
    (discomforts : List String) (hne : discomforts ≠ []) (e : Exercise)
    (he : e ∈ exercises) :
    (e ∈ filterExercisesByDiscomforts exercises discomforts ↔
      ¬ ∃ variation ∈ e.variations, ∃ muscle ∈ variation.target_muscles.primary,
        jsToLower muscle ∈ discomforts.map jsToLower) ∧
    filterExercisesByDiscomforts [secondaryOnlyExercise] ["Back"] = [secondaryOnlyExercise] ∧
    filterExercisesByDiscomforts [primaryHitExercise] ["Back"] = [] := by
  refine ⟨?_, by decide, by decide⟩
  unfold filterExercisesByDiscomforts
  have hne' : discomforts.isEmpty = false := by
    cases discomforts with
    | nil => exact absurd rfl hne
    | cons a as => rfl
  simp only [hne', Bool.false_eq_true, if_false, List.mem_filter, he, true_and,
    Bool.not_eq_true', List.any_eq_false, List.any_eq_true, List.elem_eq_mem,
    List.contains_eq_any_beq, beq_iff_eq, decide_eq_true_eq, not_exists, not_and]

/-- C6 witness: `filterExercisesByDiscomforts_primary_only` at the two
sample exercises with discomfort list `["Back"]`. -/
theorem filterExercisesByDiscomforts_primary_only_witness :
    (["Back"] : List String) ≠ [] ∧
    filterExercisesByDiscomforts [secondaryOnlyExercise] ["Back"] = [secondaryOnlyExercise] ∧
    filterExercisesByDiscomforts [primaryHitExercise] ["Back"] = [] :=
  ⟨by decide,
   (filterExercisesByDiscomforts_primary_only [secondaryOnlyExercise] ["Back"]
     (by decide) secondaryOnlyExercise (by decide)).2.1,
   (filterExercisesByDiscomforts_primary_only [primaryHitExercise] ["Back"]
     (by decide) primaryHitExercise (by decide)).2.2⟩

-- ===========================================================================
-- Session assembly helpers
-- ===========================================================================

/-- The exercise ids mentioned in a session's three phase lists (the
source collects them into a `Set`; only membership is consumed, so a list
with possible duplicates is an equivalent embedding).  An id is added
only when truthy (non-empty). -/
def sessionExerciseIds (s : PrevSession) : List String :=
  ((s.phases.warmup ++ s.phases.workout ++ s.phases.cooldown).filter
    (fun item => item.exerciseId != "")).map (·.exerciseId)

/-- `ensureVariety(selectedExercises, previousSessions)`: drop exercises
whose ids occur in the most recent prior session; with no prior session,
the input unchanged. -/
def ensureVariety (selectedExercises : List Exercise)
    (previousSessions : List PrevSession) : List Exercise :=
  match previousSessions.getLast? with
  | none => selectedExercises
  | some lastSession =>
      let lastSessionExerciseIds := sessionExerciseIds lastSession
      selectedExercises.filter (fun e => !(lastSessionExerciseIds.contains e.id))

/-- JavaScript `Set.prototype.add` on an insertion-ordered list. -/
def jsSetInsert (s : List String) (x : String) : List String :=
  if s.contains x then s else s ++ [x]

/-- `extractMusclesFromExercises(exercises)`: the set of lower-cased
target muscles (primary and secondary) over all variations. -/
def extractMusclesFromExercises (exercises : List Exercise) : List String :=
  exercises.foldl (fun muscles e =>
    e.variations.foldl (fun muscles variation =>
      ((variation.target_muscles.primary ++ variation.target_muscles.secondary).map
        jsToLower).foldl jsSetInsert muscles) muscles) []

/-- `selectExercisesForPhase(exercises, phase, count, previousSessions)`:
apply the variety constraint, revert to the full candidate set when fewer
than `count` remain, shuffle (the unseeded `Math.random` sort enters as
the `shuffle` parameter) and take the first `count`.  The `phase`
argument is accepted and unused, as in the source. -/
def selectExercisesForPhase (shuffle : List Exercise → List Exercise)
    (exercises : List Exercise) (_phase : String) (count : Nat)
    (previousSessions : List PrevSession) : List Exercise :=
  if exercises.isEmpty then []
  else
    let candidates := ensureVariety exercises previousSessions
    let candidates := if candidates.length < count then exercises else candidates
    let shuffled := shuffle candidates
    shuffled.take (min count shuffled.length)

/-- `selectCooldownExercises(cooldownExercises, workoutMuscles,
previousSessions)`: restrict to exercises sharing a muscle with the
workout (falling back to all cooldown candidates when none matches),
apply the variety constraint — with NO revert when it leaves fewer than
the required number — then shuffle and take up to 3. -/
def selectCooldownExercises (shuffle : List Exercise → List Exercise)
    (cooldownExercises : List Exercise) (workoutMuscles : List String)
    (previousSessions : List PrevSession) : List Exercise :=
  if cooldownExercises.isEmpty then []
  else
    let matching := cooldownExercises.filter (fun e =>
      e.variations.any (fun variation =>
        ((variation.target_muscles.primary ++ variation.target_muscles.secondary).map
          jsToLower).any (fun muscle => workoutMuscles.contains muscle)))
    let candidates :=
      ensureVariety (if matching.isEmpty then cooldownExercises else matching)
        previousSessions
    let shuffled := shuffle candidates
    shuffled.take (min 3 shuffled.length)

/-- The plan-item shape emitted for a selected (exercise, variation)
pair; `sets`/`reps` are created null. -/
def mkPlanItem (exercise : Exercise) (variation : Variation) : PlanItem :=
  { exerciseId := exercise.id, exerciseName := exercise.name,
    variationId := variation.id, variationName := variation.name,
    difficulty_score := variation.difficulty_score, weight := variation.weight,
    bilaterality := variation.bilaterality,
    progression_type := variation.progression_type,
    target_muscles := variation.target_muscles,
    technique_cues := variation.technique_cues,
    sets := none, reps := none }

/-- `applyProgressiveOverload(exercises, currentMilestones)`: resolve each
exercise's variation via `selectVariationForUser` (profile `{}`), dropping
exercises that resolve to none. -/
def applyProgressiveOverload (exercises : List Exercise)
    (currentMilestones : MilestoneData) : List PlanItem :=
  exercises.filterMap (fun exercise =>
    (selectVariationForUser exercise currentMilestones emptyProfile).map
      (mkPlanItem exercise))

/-- The session plan returned by `generateSession`. -/
structure SessionPlan where
  discipline : Option String
  workout : Option String
  phases : Phases
  generatedAt : String
  deriving Repr, DecidableEq, Inhabited

/-- A scalar-or-null string argument as passed to
`filterExercisesByDiscipline`: JS-falsy (null/empty) means no criterion,
otherwise a one-element array. -/
def jsStringArg (s : Option String) : Option (List String) :=
  match s with
  | none => none
  | some s => if s = "" then none else some [s]

/-- String interpolation of a possibly-null argument (`${x}`). -/
def jsShowArg (s : Option String) : String :=
  match s with
  | none => "null"
  | some s => s

/-- `generateSession(discipline, workout, userData, previousSessions)`.
The catalog fetched by `loadExercises` enters as `exerciseList`, the
unseeded shuffle as `shuffle`, `new Date().toISOString()` as `now`, and
thrown errors become `Except.error` of the message.  Stages: empty-catalog
gate; discipline filter with fallback to the whole catalog; framework
filter with fallback that RE-APPLIES the discipline filter to the whole
catalog; equipment and discomfort filters when the profile lists are
non-empty; empty gate; per-phase candidate filter with fallback to the
pre-phase set; selection; progressive overload. -/
def generateSession (cfg : EngineConfig) (shuffle : List Exercise → List Exercise)
    (exerciseList : List Exercise) (discipline workout : Option String)
    (userData : UserProfile) (previousSessions : List PrevSession)
    (now : String) : Except String SessionPlan :=
  if exerciseList.isEmpty then .error "No exercises available"
  else
    let filtered0 := filterExercisesByDiscipline exerciseList (jsStringArg discipline)
    let filtered1 := if filtered0.isEmpty then exerciseList else filtered0
    let filtered2 :=
      match workout with
      | none => filtered1
      | some w =>
          if w = "" then filtered1
          else
            let byFramework := filterExercisesByFramework cfg filtered1 (some w)
            if byFramework.isEmpty then
              filterExercisesByDiscipline exerciseList (jsStringArg discipline)
            else byFramework
    let filtered3 :=
      if userData.equipment.isEmpty then filtered2
      else filterExercisesByEquipment filtered2 userData.equipment
    let filtered4 :=
      if userData.discomforts.isEmpty then filtered3
      else filterExercisesByDiscomforts filtered3 userData.discomforts
    if filtered4.isEmpty then
      .error ("No exercises available after filtering for " ++ jsShowArg discipline
        ++ "/" ++ jsShowArg workout)
    else
      let warmupCandidates := filterExercisesByPhase cfg filtered4 (some "warmup")
      let workoutCandidates := filterExercisesByPhase cfg filtered4 (some "workout")
      let cooldownCandidates := filterExercisesByPhase cfg filtered4 (some "cooldown")
      let warmupExercises :=
        if warmupCandidates.isEmpty then
          selectExercisesForPhase shuffle filtered4 "warmup" 3 previousSessions
        else selectExercisesForPhase shuffle warmupCandidates "warmup" 3 previousSessions
      let workoutExercises :=
        if workoutCandidates.isEmpty then
          selectExercisesForPhase shuffle filtered4 "workout" 5 previousSessions
        else selectExercisesForPhase shuffle workoutCandidates "workout" 5 previousSessions
      let workoutMuscles := extractMusclesFromExercises workoutExercises
      let cooldownExercises :=
        if cooldownCandidates.isEmpty then
          selectCooldownExercises shuffle filtered4 workoutMuscles previousSessions
        else selectCooldownExercises shuffle cooldownCandidates workoutMuscles previousSessions
      let currentMilestones := userData.currentMilestones
      .ok { discipline := discipline, workout := workout,
            phases :=
              { warmup := applyProgressiveOverload warmupExercises currentMilestones,
                workout := applyProgressiveOverload workoutExercises currentMilestones,
                cooldown := applyProgressiveOverload cooldownExercises currentMilestones },
            generatedAt := now }

/-- The variety filter only removes exercises. -/
theorem mem_of_mem_ensureVariety {selectedExercises : List Exercise}
    {previousSessions : List PrevSession} {x : Exercise}
    (h : x ∈ ensureVariety selectedExercises previousSessions) :
    x ∈ selectedExercises := by
  unfold ensureVariety at h
  cases hl : previousSessions.getLast? with
  | none => rw [hl] at h; exact h
  | some lastSession => rw [hl] at h; exact List.mem_of_mem_filter h

-- ===========================================================================
-- Claim C4
-- ===========================================================================

/-- A minimal cooldown-phase exercise with the given id. -/
def cooldownE (i : String) : Exercise :=
  { id := i, name := i, discipline := "Pilates", variations := [upgradeV1] }

/-- A prior session that used exercises C1, C2 and C3. -/
def prevAllCooldowns : PrevSession :=
  ⟨⟨[], [mkPlanItem (cooldownE "C1") upgradeV1, mkPlanItem (cooldownE "C2") upgradeV1,
     mkPlanItem (cooldownE "C3") upgradeV1], []⟩⟩

/-- C4, counterexample: the cooldown phase does NOT revert to the
pre-variety candidate set.  With 3 cooldown candidates — as many as the
phase's required count — all of which appeared in the most recent prior
session, `selectCooldownExercises` returns 0 exercises (the identity
shuffle stands in for the unseeded random one, which cannot change the
count). -/
theorem selectCooldownExercises_no_variety_revert :
    selectCooldownExercises (fun l => l)
        [cooldownE "C1", cooldownE "C2", cooldownE "C3"] [] [prevAllCooldowns] = [] ∧
    ([cooldownE "C1", cooldownE "C2", cooldownE "C3"] : List Exercise).length = 3 := by
  constructor
  · decide
  · decide

/-- C4, amended: for the warmup and workout phases
(`selectExercisesForPhase`), selection first removes exercises of the most
recent prior session and reverts to the pre-variety candidate set when
fewer than the required count remain, so — for any shuffle that permutes
its input, as `Array.prototype.sort` does — the phase returns exactly the
required count whenever enough candidates exist before the variety
filter, every selected exercise comes from the candidate set, and the
selection is drawn from the variety-filtered set whenever it is large
enough.  The cooldown phase (`selectCooldownExercises`) applies the
variety filter WITHOUT the revert and may return fewer exercises than the
pre-variety candidate count. -/
theorem selectExercisesForPhase_variety_and_count
    (shuffle : List Exercise → List Exercise) (exercises : List Exercise)
    (phase : String) (count : Nat) (prev : List PrevSession)
    (hlen : ∀ l, (shuffle l).length = l.length)
    (hmem : ∀ l x, x ∈ shuffle l → x ∈ l)
    (hcount : count ≤ exercises.length) :
    (selectExercisesForPhase shuffle exercises phase count prev).length = count ∧
    (∀ x ∈ selectExercisesForPhase shuffle exercises phase count prev, x ∈ exercises) ∧
    (count ≤ (ensureVariety exercises prev).length →
      ∀ x ∈ selectExercisesForPhase shuffle exercises phase count prev,
        x ∈ ensureVariety exercises prev) := by
  unfold selectExercisesForPhase
  by_cases hemp : exercises.isEmpty
  · have h0 : exercises = [] := by
      cases hl : exercises with
      | nil => rfl
      | cons a as => rw [hl] at hemp; simp at hemp
    have hc0 : count = 0 := by
      rw [h0] at hcount
      simpa using hcount
    simp [hemp, hc0]
  · simp only [hemp, Bool.false_eq_true, if_false]
    by_cases hlt : (ensureVariety exercises prev).length < count
    · simp only [hlt, if_true]
      refine ⟨?_, ?_, ?_⟩
      · rw [List.length_take, hlen]
        omega
      · intro x hx
        exact hmem _ _ (List.mem_of_mem_take hx)
      · intro hge
        omega
    · simp only [hlt, if_false]
      refine ⟨?_, ?_, ?_⟩
      · rw [List.length_take, hlen]
        omega
      · intro x hx
        exact mem_of_mem_ensureVariety (hmem _ _ (List.mem_of_mem_take hx))
      · intro _ x hx
        exact hmem _ _ (List.mem_of_mem_take hx)

/-- C4 witness: `selectExercisesForPhase_variety_and_count` with the
identity shuffle, 2 candidates both used in the prior session and a
required count of 2: the revert fires and the phase still returns 2. -/
theorem selectExercisesForPhase_variety_and_count_witness :
    (2 : Nat) ≤ ([cooldownE "C1", cooldownE "C2"] : List Exercise).length ∧
    (selectExercisesForPhase (fun l => l) [cooldownE "C1", cooldownE "C2"]
      "warmup" 2 [prevAllCooldowns]).length = 2 :=
  ⟨by decide,
   (selectExercisesForPhase_variety_and_count (fun l => l)
     [cooldownE "C1", cooldownE "C2"] "warmup" 2 [prevAllCooldowns]
     (fun _ => rfl) (fun _ _ h => h) (by decide)).1⟩

-- ===========================================================================
-- Claim C9
-- ===========================================================================

/-- C9: against an empty catalog, `generateSession` fails with the
"No exercises available" error (an `Except.error`, so no degenerate
session plan is ever produced), for every discipline, workout, profile
and history. -/
theorem generateSession_empty_catalog (cfg : EngineConfig)
    (shuffle : List Exercise → List Exercise) (discipline workout : Option String)
    (userData : UserProfile) (previousSessions : List PrevSession) (now : String) :
    generateSession cfg shuffle [] discipline workout userData previousSessions now
      = .error "No exercises available" := rfl

-- ===========================================================================
-- Claim C10
-- ===========================================================================

/-- C10: when the discipline matches nothing (so the engine falls back to
the whole catalog) and the framework filter over the whole catalog is
also empty, the framework fallback re-applies the empty discipline filter
instead of restoring the full-catalog set, so `generateSession` fails
with the "No exercises available after filtering" error instead of
generating a session from the full catalog. -/
theorem generateSession_framework_fallback_empties (cfg : EngineConfig)
    (shuffle : List Exercise → List Exercise) (exerciseList : List Exercise)
    (d w : String) (userData : UserProfile) (previousSessions : List PrevSession)
    (now : String)
    (hne : exerciseList ≠ [])
    (hd : d ≠ "")
    (hw : w ≠ "")
    (hdisc : filterExercisesByDiscipline exerciseList (some [d]) = [])
    (hfw : filterExercisesByFramework cfg exerciseList (some w) = []) :
    generateSession cfg shuffle exerciseList (some d) (some w) userData
        previousSessions now
      = .error ("No exercises available after filtering for " ++ d ++ "/" ++ w) := by
  have hne' : exerciseList.isEmpty = false := by
    cases hl : exerciseList with
    | nil => exact absurd hl hne
    | cons a as => rfl
  unfold generateSession jsStringArg jsShowArg
  simp only [hne', Bool.false_eq_true, if_false, hd, if_neg hd, hdisc,
    List.isEmpty_nil, if_true, if_neg hw, hfw, ite_self]
  simp [filterExercisesByEquipment, filterExercisesByDiscomforts]

/-- An exercise no Pilates discipline filter and no Push framework
mapping will keep. -/
def weightsBackExercise : Exercise :=
  { id := "W1", name := "Weights Back", discipline := "Weights",
    variations := [{ upgradeV1 with id := "WV1", target_muscles := ⟨["back"], []⟩ }] }

/-- C10 witness: `generateSession_framework_fallback_empties` on a
one-exercise Weights catalog queried for Pilates with the Push
framework. -/
theorem generateSession_framework_fallback_empties_witness :
    ([weightsBackExercise] : List Exercise) ≠ [] ∧
    filterExercisesByDiscipline [weightsBackExercise] (some ["Pilates"]) = [] ∧
    filterExercisesByFramework specEngineConfig [weightsBackExercise] (some "Push") = [] ∧
    generateSession specEngineConfig (fun l => l) [weightsBackExercise]
        (some "Pilates") (some "Push") emptyProfile [] "2024-01-01T00:00:00.000Z"
      = .error "No exercises available after filtering for Pilates/Push" :=
  ⟨by decide, by decide, by decide,
   generateSession_framework_fallback_empties specEngineConfig (fun l => l)
     [weightsBackExercise] "Pilates" "Push" emptyProfile [] "2024-01-01T00:00:00.000Z"
     (by decide) (by decide) (by decide) (by decide) (by decide)⟩

-- ===========================================================================
-- Weekly system generation
-- ===========================================================================

/-- `distributeFrameworksAcrossWeek(framework, daysPerWeek)`: the per-day
framework assignment list (the source pushes one entry per loop index;
embedded as a map over the index range). -/
def distributeFrameworksAcrossWeek (framework : String) (daysPerWeek : Nat) :
    List String :=
  if framework = "Push/Pull" then
    (List.range daysPerWeek).map (fun i => if i % 2 = 0 then "Push" else "Pull")
  else if framework = "Upper/Lower" then
    (List.range daysPerWeek).map (fun i => if i % 2 = 0 then "Upper" else "Lower")
  else if framework = "Chest/Back/Legs" then
    (List.range daysPerWeek).map (fun i => ["Chest", "Back", "Legs"].getD (i % 3) "")
  else if framework = "Push/Pull/Legs" then
    (List.range daysPerWeek).map (fun i => ["Push", "Pull", "Legs"].getD (i % 3) "")
  else if framework = "Full Body" then
    (List.range daysPerWeek).map (fun _ => "Full Body")
  else
    (List.range daysPerWeek).map (fun _ => framework)

/-- The spec's fixed framework-assignment rule for day index `i`:
two-part names alternate by parity, three-part names cycle mod 3, and any
other name (including `Full Body`) is used verbatim. -/
def frameworkForDaySpec (framework : String) (i : Nat) : String :=
  if framework = "Push/Pull" then (if i % 2 = 0 then "Push" else "Pull")
  else if framework = "Upper/Lower" then (if i % 2 = 0 then "Upper" else "Lower")
  else if framework = "Chest/Back/Legs" then ["Chest", "Back", "Legs"].getD (i % 3) ""
  else if framework = "Push/Pull/Legs" then ["Push", "Pull", "Legs"].getD (i % 3) ""
  else framework

theorem distributeFrameworksAcrossWeek_length (framework : String) (n : Nat) :
    (distributeFrameworksAcrossWeek framework n).length = n := by
  unfold distributeFrameworksAcrossWeek
  split_ifs <;> simp

theorem distributeFrameworksAcrossWeek_getD (framework : String) {n i : Nat}
    (hi : i < n) :
    (distributeFrameworksAcrossWeek framework n).getD i ""
      = frameworkForDaySpec framework i := by
  unfold distributeFrameworksAcrossWeek frameworkForDaySpec
  have hr : (List.range n)[i]? = some i := List.getElem?_range hi
  split_ifs
  all_goals simp_all [List.getD_eq_getElem?_getD, List.getElem?_map, hr,
    List.getElem?_replicate, hi]

/-- `balanceDisciplinesAcrossWeek(disciplines, daysPerWeek)`: greedy
load-balancing; each day takes the first discipline whose running count
is minimal.  With no disciplines, every day gets `null`. -/
def balanceDisciplinesAcrossWeek (disciplines : List String) (daysPerWeek : Nat) :
    List (Option String) :=
  if disciplines.isEmpty then List.replicate daysPerWeek none
  else
    let initCounts : List (String × Nat) :=
      disciplines.foldl (fun counts d => jsSet counts d 0) []
    let step := fun (st : List (String × Nat) × List (Option String)) (_ : Nat) =>
      let counts := st.1
      let minCount := ((counts.map (·.2)).min?).getD 0
      let leastUsed := disciplines.find? (fun d => (jsGet counts d).getD 0 == minCount)
      let chosen :=
        match leastUsed with
        | some d => if d = "" then disciplines.headD "" else d
        | none => disciplines.headD ""
      (jsSet counts chosen ((jsGet counts chosen).getD 0 + 1), st.2 ++ [some chosen])
    ((List.range daysPerWeek).foldl step (initCounts, [])).2

/-- `TERMINOLOGY.DISCIPLINE_PILATES` from `constants.js`.  Modelled from
the spec, which names Pilates as the default discipline. -/
def TERMINOLOGY_DISCIPLINE_PILATES : String := "Pilates"

/-- A weekly configuration as supplied by the caller; absent fields are
`none`. -/
structure WeeklyConfig where
  daysPerWeek : Option Nat
  framework : Option String
  startDate : Option String
  deriving Repr, DecidableEq, Inhabited

/-- The merged shape of a weekly configuration. -/
structure WeeklyConfigFull where
  daysPerWeek : Nat
  framework : String
  startDate : String
  deriving Repr, DecidableEq, Inhabited

/-- `DEFAULT_WEEKLY_CONFIG` from `constants.js`.  Modelled from the spec:
the file is not among the sources and the spec leaves the default values
open, so these are placeholders; claims under verification always supply
the fields explicitly, making the defaults irrelevant to the theorems. -/
def DEFAULT_WEEKLY_CONFIG : WeeklyConfigFull :=
  ⟨3, "Full Body", "2024-01-01"⟩

/-- One generated day of a weekly system. -/
structure DaySession where
  day : Nat
  date : String
  discipline : Option String
  workout : String
  phases : Phases
  editable : Bool
  deriving Repr, DecidableEq, Inhabited

/-- The weekly training system returned by `generateWeeklySystem`. -/
structure WeeklySystem where
  id : String
  type : String
  startDate : String
  daysPerWeek : Nat
  framework : String
  sessions : List DaySession
  editable : Bool
  createdAt : String
  deriving Repr, DecidableEq, Inhabited

/-- One iteration of the weekly generation loop: build day `day` given
the sessions generated so far (`previousSessions` is the last-2 window,
`sessions.slice(-2)`). -/
def weeklySessionStep (cfg : EngineConfig) (shuffle : List Exercise → List Exercise)
    (exerciseList : List Exercise) (userProfile : UserProfile)
    (currentMilestones : MilestoneData) (disciplineAssignments : List (Option String))
    (frameworkAssignments : List String) (addDays : String → Nat → String)
    (startDate nowISO : String) (day : Nat) (sessions : List DaySession) :
    Except String DaySession :=
  let sessionDate := addDays startDate day
  let sessionDiscipline := disciplineAssignments.getD day none
  let sessionWorkout := frameworkAssignments.getD day ""
  let previousSessions :=
    (sessions.drop (sessions.length - 2)).map (fun s => PrevSession.mk s.phases)
  match generateSession cfg shuffle exerciseList sessionDiscipline (some sessionWorkout)
      { userProfile with currentMilestones := currentMilestones }
      previousSessions nowISO with
  | .error e => .error e
  | .ok session =>
      .ok { day := day + 1, date := sessionDate, discipline := sessionDiscipline,
            workout := sessionWorkout, phases := session.phases, editable := true }

/-- Run the weekly loop for days `0 .. n-1`, accumulating sessions in
order and propagating the first failure. -/
def genSessionsForWeek (step : Nat → List DaySession → Except String DaySession) :
    Nat → Except String (List DaySession)
  | 0 => .ok []
  | n + 1 =>
      match genSessionsForWeek step n with
      | .error e => .error e
      | .ok prev =>
          match step n prev with
          | .error e => .error e
          | .ok s => .ok (prev ++ [s])

/-- `generateWeeklySystem(userProfile, config)`.  The catalog enters as
`exerciseList`; `addDays` models the `Date` arithmetic
(`startDate + day` → ISO date); `systemId` models
`weekly-system-${Date.now()}` and `nowISO` models
`new Date().toISOString()`; the caller config is merged over
`DEFAULT_WEEKLY_CONFIG` field by field. -/
def generateWeeklySystem (cfg : EngineConfig) (shuffle : List Exercise → List Exercise)
    (exerciseList : List Exercise) (addDays : String → Nat → String)
    (systemId nowISO : String) (userProfile : UserProfile) (config : WeeklyConfig) :
    Except String WeeklySystem :=
  let daysPerWeek := config.daysPerWeek.getD DEFAULT_WEEKLY_CONFIG.daysPerWeek
  let framework := config.framework.getD DEFAULT_WEEKLY_CONFIG.framework
  let startDate := config.startDate.getD DEFAULT_WEEKLY_CONFIG.startDate
  if exerciseList.isEmpty then .error "No exercises found in exercises.json"
  else
    let preferredDisciplines :=
      userProfile.preferredDisciplines.getD [TERMINOLOGY_DISCIPLINE_PILATES]
    let currentMilestones := userProfile.currentMilestones
    let equipment := userProfile.equipment
    let discomforts := userProfile.discomforts
    let filtered0 := filterExercisesByDiscipline exerciseList (some preferredDisciplines)
    if filtered0.isEmpty then
      .error ("No exercises found for disciplines: "
        ++ String.intercalate ", " preferredDisciplines)
    else
      let filtered1 :=
        if equipment.isEmpty then filtered0
        else filterExercisesByEquipment filtered0 equipment
      let filtered2 :=
        if discomforts.isEmpty then filtered1
        else filterExercisesByDiscomforts filtered1 discomforts
      if filtered2.isEmpty then
        .error "No exercises available after filtering. Try adjusting your preferences."
      else
        let frameworkAssignments := distributeFrameworksAcrossWeek framework daysPerWeek
        let disciplineAssignments :=
          balanceDisciplinesAcrossWeek preferredDisciplines daysPerWeek
        match genSessionsForWeek
            (weeklySessionStep cfg shuffle exerciseList userProfile currentMilestones
              disciplineAssignments frameworkAssignments addDays startDate nowISO)
            daysPerWeek with
        | .error e => .error e
        | .ok sessions =>
            .ok { id := systemId, type := "weekly", startDate := startDate,
                  daysPerWeek := daysPerWeek, framework := framework,
                  sessions := sessions, editable := true, createdAt := nowISO }

/-- Every session produced by the weekly loop satisfies a property its
step guarantees, and the loop produces exactly `n` sessions. -/
theorem genSessionsForWeek_spec (step : Nat → List DaySession → Except String DaySession)
    (P : Nat → DaySession → Prop)
    (hstep : ∀ k acc s, step k acc = .ok s → P k s) :
    ∀ (n : Nat) (l : List DaySession), genSessionsForWeek step n = .ok l →
      l.length = n ∧ ∀ i, i < n → P i (l.getD i default) := by
  intro n
  induction n with
  | zero =>
      intro l h
      simp only [genSessionsForWeek, Except.ok.injEq] at h
      subst h
      exact ⟨rfl, fun i hi => absurd hi (by omega)⟩
  | succ n ih =>
      intro l h
      unfold genSessionsForWeek at h
      split at h
      · simp at h
      · rename_i prev hg
        split at h
        · simp at h
        · rename_i s hs
          injection h with h2
          subst h2
          obtain ⟨hlen, hP⟩ := ih prev hg
          refine ⟨by simp [hlen], fun i hi => ?_⟩
          by_cases hin : i < n
          · rw [List.getD_append _ _ _ _ (by omega)]
            exact hP i hin
          · have hieq : i = n := by omega
            subst hieq
            have hlast : (prev ++ [s]).getD i default = s := by
              rw [List.getD_eq_getElem?_getD, show i = prev.length from hlen.symm,
                List.getElem?_concat_length]
              rfl
            rw [hlast]
            exact hstep _ prev s hs

/-- A successful weekly step yields day number `k + 1` and the `k`-th
framework assignment as the workout. -/
theorem weeklySessionStep_shape (cfg : EngineConfig)
    (shuffle : List Exercise → List Exercise) (exerciseList : List Exercise)
    (userProfile : UserProfile) (currentMilestones : MilestoneData)
    (disciplineAssignments : List (Option String)) (frameworkAssignments : List String)
    (addDays : String → Nat → String) (startDate nowISO : String) :
    ∀ k acc s, weeklySessionStep cfg shuffle exerciseList userProfile currentMilestones
        disciplineAssignments frameworkAssignments addDays startDate nowISO k acc
        = .ok s →
      s.day = k + 1 ∧ s.workout = frameworkAssignments.getD k "" := by
  intro k acc s h
  simp only [weeklySessionStep] at h
  split at h
  · simp at h
  · injection h with h2
    subst h2
    exact ⟨rfl, rfl⟩

-- ===========================================================================
-- Claim C7
-- ===========================================================================

/-- C7: whenever `generateWeeklySystem` succeeds with an explicit
`daysPerWeek = n ≥ 1` and framework `fw`, it returns exactly `n`
sessions; the session at index `i` carries `day = i + 1` and its workout
follows the fixed framework-assignment rule (`Push/Pull` and
`Upper/Lower` alternate by index parity, `Chest/Back/Legs` and
`Push/Pull/Legs` cycle by index mod 3, and `Full Body` or any
unrecognized name is used verbatim for every day).  The witness runs the
`daysPerWeek = 4`, `Full Body` instance concretely. -/
theorem generateWeeklySystem_day_count_and_workouts (cfg : EngineConfig)
    (shuffle : List Exercise → List Exercise) (exerciseList : List Exercise)
    (addDays : String → Nat → String) (systemId nowISO : String)
    (userProfile : UserProfile) (config : WeeklyConfig) (n : Nat) (fw : String)
    (hdays : config.daysPerWeek = some n) (hfw : config.framework = some fw)
    (_hn : 1 ≤ n) :
    ∀ sys, generateWeeklySystem cfg shuffle exerciseList addDays systemId nowISO
        userProfile config = .ok sys →
      sys.sessions.length = n ∧
      ∀ i, i < n → (sys.sessions.getD i default).day = i + 1 ∧
        (sys.sessions.getD i default).workout = frameworkForDaySpec fw i := by
  intro sys hok
  unfold generateWeeklySystem at hok
  rw [hdays, hfw] at hok
  simp only [Option.getD_some] at hok
  repeat' split at hok
  all_goals first
    | exact Except.noConfusion hok
    | (rename_i sessions heq
       injection hok with hok2
       subst hok2
       obtain ⟨hlen, hP⟩ := genSessionsForWeek_spec _
         (fun k s => s.day = k + 1 ∧
           s.workout = (distributeFrameworksAcrossWeek fw n).getD k "")
         (weeklySessionStep_shape cfg shuffle exerciseList userProfile
           userProfile.currentMilestones _ _ addDays _ nowISO)
         n sessions heq
       refine ⟨hlen, fun i hi => ?_⟩
       obtain ⟨hday, hwork⟩ := hP i hi
       exact ⟨hday, hwork.trans (distributeFrameworksAcrossWeek_getD fw hi)⟩)

/-- The profile used for the concrete weekly run. -/
def pilatesProfile : UserProfile :=
  { currentMilestones := [], goals := [], equipment := [], discomforts := [],
    preferredDisciplines := some ["Pilates"] }

/-- A concrete weekly generation: 4 days of `Full Body` over a
one-exercise Pilates catalog, identity shuffle, constant date function. -/
def sampleWeeklyRun : Except String WeeklySystem :=
  generateWeeklySystem specEngineConfig (fun l => l) [upgradeExercise]
    (fun s _ => s) "weekly-system-0" "2024-01-01T00:00:00.000Z" pilatesProfile
    ⟨some 4, some "Full Body", some "2024-01-01"⟩

/-- The payload of a successful `Except`, with a default. -/
def exceptValue {ε α : Type} (x : Except ε α) (d : α) : α :=
  match x with
  | .ok a => a
  | .error _ => d

/-- C7 witness: the concrete 4-day `Full Body` run succeeds, and by
`generateWeeklySystem_day_count_and_workouts` it has 4 sessions, each
with workout `Full Body` and days 1..4. -/
theorem generateWeeklySystem_day_count_and_workouts_witness :
    (1 : Nat) ≤ 4 ∧
    (exceptValue sampleWeeklyRun default).sessions.length = 4 ∧
    ((exceptValue sampleWeeklyRun default).sessions.getD 0 default).workout = "Full Body" ∧
    ((exceptValue sampleWeeklyRun default).sessions.getD 1 default).workout = "Full Body" ∧
    ((exceptValue sampleWeeklyRun default).sessions.getD 2 default).workout = "Full Body" ∧
    ((exceptValue sampleWeeklyRun default).sessions.getD 3 default).workout = "Full Body" ∧
    ((exceptValue sampleWeeklyRun default).sessions.getD 3 default).day = 4 :=
  have T := generateWeeklySystem_day_count_and_workouts specEngineConfig (fun l => l)
    [upgradeExercise] (fun s _ => s) "weekly-system-0" "2024-01-01T00:00:00.000Z"
    pilatesProfile ⟨some 4, some "Full Body", some "2024-01-01"⟩ 4 "Full Body"
    rfl rfl (by omega) (exceptValue sampleWeeklyRun default) rfl
  ⟨by omega, T.1,
   ((T.2 0 (by omega)).2).trans (by decide),
   ((T.2 1 (by omega)).2).trans (by decide),
   ((T.2 2 (by omega)).2).trans (by decide),
   ((T.2 3 (by omega)).2).trans (by decide),
   (T.2 3 (by omega)).1⟩

-- ===========================================================================
-- Alternative-variation finder
-- ===========================================================================

/-- `new Set([...muscles].map(m => m.toLowerCase()))`: lower-cased,
first occurrences kept. -/
def jsSetOfLower (muscles : List String) : List String :=
  (muscles.map jsToLower).foldl jsSetInsert []

/-- The phase-appropriateness test of `findAlternativeVariation`: reject
when the difficulty falls outside the bounds of the criteria found at
`phaseType.toUpperCase()`; no criteria (or a phase spelling none of the
three branches recognizes) passes everything. -/
def phaseBoundsPass (cfg : EngineConfig) (phaseType : String) (difficulty : Int) : Bool :=
  match cfg.phaseCriteria (jsToUpper phaseType) with
  | none => true
  | some criteria =>
      if phaseType = "warmup" then decide (difficulty ≤ criteria.maxDifficulty)
      else if phaseType = "workout" then
        decide (criteria.minDifficulty ≤ difficulty) &&
          decide (difficulty ≤ criteria.maxDifficulty)
      else if phaseType = "cooldown" then decide (difficulty ≤ criteria.maxDifficulty)
      else true

/-- The body of the candidate loop of `findAlternativeVariation` for one
(exercise, variation) pair: reject when the muscle-overlap ratio
`overlap / max(|current|, |candidate|)` is below 0.5 (the source's
floating-point test `similarityScore < 0.5` embedded as the exact integer
comparison `2 * overlap < totalMuscles`), reject when out of the phase
bounds, otherwise emit the plan item with its `_swapScore`
`similarity * 10 + biomechanicalDiff` — kept as the exact fraction
`(10 * overlap + biomechanicalDiff * totalMuscles, totalMuscles)` since
scores are only ever compared. -/
def altCandidate (cfg : EngineConfig) (currentVariation : PlanItem)
    (phaseType : String) (exercise : Exercise) (variation : Variation) :
    Option (PlanItem × Nat × Nat) :=
  let currentMuscles := jsSetOfLower (currentVariation.target_muscles.primary
    ++ currentVariation.target_muscles.secondary)
  let variationMuscles := jsSetOfLower (variation.target_muscles.primary
    ++ variation.target_muscles.secondary)
  let overlap := (currentMuscles.filter (fun m => variationMuscles.contains m)).length
  let totalMuscles := max currentMuscles.length variationMuscles.length
  if 2 * overlap < totalMuscles then none
  else if !phaseBoundsPass cfg phaseType variation.difficulty_score then none
  else
    let currentBilaterality :=
      if currentVariation.bilaterality = "" then "bilateral"
      else currentVariation.bilaterality
    let biomechanicalDiff : Nat :=
      (if variation.bilaterality ≠ currentBilaterality then 2 else 0)
      + (if variation.progression_type ≠ currentVariation.progression_type then 1 else 0)
      + (if variation.difficulty_score ≠ currentVariation.difficulty_score then 1 else 0)
    some (mkPlanItem exercise variation,
      10 * overlap + biomechanicalDiff * totalMuscles, totalMuscles)

/-- `findAlternativeVariation(currentVariation, allExercises, phaseType)`:
score every variation of every OTHER exercise via `altCandidate`, sort
descending by score (stable; scores compared by cross multiplication)
and return the top 3 with the score stripped. -/
def findAlternativeVariation (cfg : EngineConfig) (currentVariation : PlanItem)
    (allExercises : List Exercise) (phaseType : String) : List PlanItem :=
  if allExercises.isEmpty then []
  else
    let currentMuscles := jsSetOfLower (currentVariation.target_muscles.primary
      ++ currentVariation.target_muscles.secondary)
    if currentMuscles.isEmpty then []
    else
      let alternatives := allExercises.flatMap (fun exercise =>
        if exercise.id == currentVariation.exerciseId then []
        else exercise.variations.filterMap
          (altCandidate cfg currentVariation phaseType exercise))
      let sorted := sortStable
        (fun a b => decide (b.2.1 * a.2.2 ≤ a.2.1 * b.2.2)) alternatives
      (sorted.take 3).map (·.1)

/-- A successful candidate carries the variation's muscles and passed the
overlap-ratio floor. -/
theorem altCandidate_some (cfg : EngineConfig) (currentVariation : PlanItem)
    (phaseType : String) (exercise : Exercise) (variation : Variation)
    (pair : PlanItem × Nat × Nat)
    (h : altCandidate cfg currentVariation phaseType exercise variation = some pair) :
    pair.1.target_muscles = variation.target_muscles ∧
    max (jsSetOfLower (currentVariation.target_muscles.primary
        ++ currentVariation.target_muscles.secondary)).length
      (jsSetOfLower (variation.target_muscles.primary
        ++ variation.target_muscles.secondary)).length
      ≤ 2 * ((jsSetOfLower (currentVariation.target_muscles.primary
          ++ currentVariation.target_muscles.secondary)).filter
          (fun m => (jsSetOfLower (variation.target_muscles.primary
            ++ variation.target_muscles.secondary)).contains m)).length := by
  simp only [altCandidate] at h
  by_cases hr : 2 * ((jsSetOfLower (currentVariation.target_muscles.primary
      ++ currentVariation.target_muscles.secondary)).filter
      (fun m => (jsSetOfLower (variation.target_muscles.primary
        ++ variation.target_muscles.secondary)).contains m)).length
      < max (jsSetOfLower (currentVariation.target_muscles.primary
          ++ currentVariation.target_muscles.secondary)).length
        (jsSetOfLower (variation.target_muscles.primary
          ++ variation.target_muscles.secondary)).length
  · rw [if_pos hr] at h
    exact absurd h (by simp)
  · rw [if_neg hr] at h
    cases hp : phaseBoundsPass cfg phaseType variation.difficulty_score with
    | false =>
        rw [hp] at h
        simp at h
    | true =>
        rw [hp] at h
        simp only [Bool.not_true, Bool.false_eq_true, if_false] at h
        injection h with h2
        subst h2
        exact ⟨rfl, le_of_not_lt hr⟩

-- ===========================================================================
-- Claim C8
-- ===========================================================================

/-- C8: every candidate returned by `findAlternativeVariation` has
muscle-overlap count at least half of the larger of the two muscle-set
sizes — the overlap ratio is at least 0.5 — and in particular shares at
least one muscle with the current variation, regardless of its
biomechanical-difference score. -/
theorem findAlternativeVariation_overlap_floor (cfg : EngineConfig)
    (currentVariation : PlanItem) (allExercises : List Exercise)
    (phaseType : String) (item : PlanItem)
    (hmem : item ∈ findAlternativeVariation cfg currentVariation allExercises phaseType) :
    max (jsSetOfLower (currentVariation.target_muscles.primary
        ++ currentVariation.target_muscles.secondary)).length
      (jsSetOfLower (item.target_muscles.primary ++ item.target_muscles.secondary)).length
      ≤ 2 * ((jsSetOfLower (currentVariation.target_muscles.primary
          ++ currentVariation.target_muscles.secondary)).filter
          (fun m => (jsSetOfLower (item.target_muscles.primary
            ++ item.target_muscles.secondary)).contains m)).length ∧
    1 ≤ ((jsSetOfLower (currentVariation.target_muscles.primary
        ++ currentVariation.target_muscles.secondary)).filter
        (fun m => (jsSetOfLower (item.target_muscles.primary
          ++ item.target_muscles.secondary)).contains m)).length := by
  unfold findAlternativeVariation at hmem
  by_cases hemp : allExercises.isEmpty
  · simp [hemp] at hmem
  · simp only [hemp, Bool.false_eq_true, if_false] at hmem
    by_cases hcur : (jsSetOfLower (currentVariation.target_muscles.primary
        ++ currentVariation.target_muscles.secondary)).isEmpty
    · simp [hcur] at hmem
    · simp only [hcur, Bool.false_eq_true, if_false] at hmem
      obtain ⟨pair, hpair, hitem⟩ := List.exists_of_mem_map hmem
      have hsorted := List.mem_of_mem_take hpair
      rw [mem_sortStable] at hsorted
      obtain ⟨exercise, _hex, hvar⟩ := List.mem_flatMap.mp hsorted
      by_cases hid : exercise.id == currentVariation.exerciseId
      · rw [if_pos hid] at hvar
        simp at hvar
      · rw [if_neg hid] at hvar
        obtain ⟨variation, _hv, hsome⟩ := List.mem_filterMap.mp hvar
        obtain ⟨htm, hfloor⟩ :=
          altCandidate_some cfg currentVariation phaseType exercise variation pair hsome
        rw [← hitem, htm]
        have hcurlen : 1 ≤ (jsSetOfLower (currentVariation.target_muscles.primary
            ++ currentVariation.target_muscles.secondary)).length := by
          cases hl : jsSetOfLower (currentVariation.target_muscles.primary
              ++ currentVariation.target_muscles.secondary) with
          | nil => rw [hl] at hcur; simp at hcur
          | cons a as => simp
        refine ⟨hfloor, ?_⟩
        omega

/-- A second exercise targeting the same muscle as the current one. -/
def chestAltVariation : Variation :=
  { upgradeV1 with id := "AV1", name := "Alt Variation" }

/-- The exercise carrying `chestAltVariation`. -/
def chestAltExercise : Exercise :=
  { id := "A1", name := "Alt Exercise", discipline := "Pilates",
    variations := [chestAltVariation] }

/-- C8 witness: `findAlternativeVariation_overlap_floor` at a concrete
catalog where the finder returns a fully-overlapping candidate. -/
theorem findAlternativeVariation_overlap_floor_witness :
    mkPlanItem chestAltExercise chestAltVariation ∈
      findAlternativeVariation specEngineConfig (mkPlanItem upgradeExercise upgradeV1)
        [chestAltExercise] "other" ∧
    1 ≤ ((jsSetOfLower ((mkPlanItem upgradeExercise upgradeV1).target_muscles.primary
        ++ (mkPlanItem upgradeExercise upgradeV1).target_muscles.secondary)).filter
        (fun m => (jsSetOfLower
          ((mkPlanItem chestAltExercise chestAltVariation).target_muscles.primary
            ++ (mkPlanItem chestAltExercise chestAltVariation).target_muscles.secondary)).contains
          m)).length :=
  ⟨by decide,
   (findAlternativeVariation_overlap_floor specEngineConfig
     (mkPlanItem upgradeExercise upgradeV1) [chestAltExercise] "other"
     (mkPlanItem chestAltExercise chestAltVariation) (by decide)).2⟩

end Regain
